import Mathlib

/-!
Verification of the message-generation pipeline of the Bot-GPT conversational
backend: token estimation, history truncation, keyword-overlap retrieval,
context assembly and the generation orchestrator, shallowly embedded from
`app/services/llm_service.py`, `app/services/rag_service.py` and
`app/services/conversation_service.py`.
-/

namespace BotGPT

/-- A role/content pair, the shape of the dicts the services pass around
(`{"role": ..., "content": ...}`). -/
structure ChatMsg where
  role : String
  content : String
deriving DecidableEq, Repr, Inhabited

/-! ## LLMService (`app/services/llm_service.py`) -/

namespace LLMService

/-- `self.default_model` set in `LLMService.__init__`. -/
def default_model : String := "llama-3.1-8b-instant"

/-- `self.max_tokens` set in `LLMService.__init__`. -/
def max_tokens : Nat := 2048

/-- `self.max_context_tokens` set in `LLMService.__init__`. -/
def max_context_tokens : Nat := 32768

/-- `LLMService.estimate_tokens`: `len(text) // 4`. -/
def estimate_tokens (text : String) : Nat := text.length / 4

end LLMService

/-- Python `list.insert` at a non-negative position: clamps to the end when the
position is past the length. -/
def insertClamped (x : α) : Nat → List α → List α
  | 0, l => x :: l
  | _ + 1, [] => [x]
  | n + 1, y :: l => y :: insertClamped x n l

/-- Python `list.insert(idx, x)` including its negative-index semantics:
a negative index counts from the end and is clamped at 0, a non-negative
index is clamped at the length. -/
def pyInsert (l : List α) (idx : Int) (x : α) : List α :=
  insertClamped x (if idx < 0 then ((l.length : Int) + idx).toNat else min idx.toNat l.length) l

/-- The `for i in range(len(messages) - 1, start_idx - 1, -1)` loop of
`LLMService.truncate_messages`, including the `break` and the
`result.insert(len(result) - (len(messages) - i), messages[i])` call.
`k` is the number of loop iterations still to run, so the current index is
`start_idx + k - 1`; the first call passes `k = len(messages) - start_idx`. -/
def truncGo (messages : List ChatMsg) (message_tokens : List Nat) (maxTok start_idx : Nat) :
    Nat → List ChatMsg → Nat → List ChatMsg
  | 0, result, _ => result
  | k + 1, result, total_tokens =>
    let i := start_idx + k
    let ti := message_tokens.getD i 0
    if total_tokens + ti ≤ maxTok then
      truncGo messages message_tokens maxTok start_idx k
        (pyInsert result ((result.length : Int) - ((messages.length : Int) - (i : Int)))
          (messages.getD i ⟨"", ""⟩))
        (total_tokens + ti)
    else
      result

/-- `LLMService.truncate_messages(messages, max_tokens, keep_system=True)`,
embedded faithfully, including the fact that in the branch where the first
message is not a kept system message, `total_tokens` is *not* reset and still
holds the full (over-budget) sum when the suffix walk starts. -/
def truncate_messages (messages : List ChatMsg) (maxTok : Nat) (keep_system : Bool := true) :
    List ChatMsg :=
  if messages.isEmpty then messages
  else
    let message_tokens := messages.map (fun m => LLMService.estimate_tokens m.content)
    let total_tokens := message_tokens.sum
    if total_tokens ≤ maxTok then messages
    else
      let headMsg := messages.headD ⟨"", ""⟩
      if headMsg.role == "system" && keep_system then
        truncGo messages message_tokens maxTok 1 (messages.length - 1)
          [headMsg] (message_tokens.headD 0)
      else
        truncGo messages message_tokens maxTok 0 messages.length [] total_tokens

/-! ## RAGService (`app/services/rag_service.py`) -/

/-- Python `str.lower()`: lowercase every character. -/
def toLowerStr (s : String) : String :=
  ⟨s.data.map Char.toLower⟩

/-- Split a character list at every character satisfying `p`, keeping empty
pieces, as Python `str.split(sep)` does for a one-character separator. -/
def splitPred (p : Char → Bool) : List Char → List (List Char)
  | [] => [[]]
  | c :: rest =>
    match splitPred p rest with
    | [] => [[]]
    | piece :: pieces =>
      if p c then [] :: piece :: pieces else (c :: piece) :: pieces

/-- Python `content.split('.')`. -/
def splitDot (content : String) : List String :=
  (splitPred (fun c => c == '.') content.data).map (fun piece => String.mk piece)

/-- Python `str.strip()`: drop leading and trailing whitespace. -/
def pyStrip (s : String) : String :=
  ⟨((s.data.dropWhile (fun c => c.isWhitespace)).reverse.dropWhile
      (fun c => c.isWhitespace)).reverse⟩

/-- Python `text.lower().split()`: lowercase, split on whitespace runs,
discarding empty pieces.  Used for both the query word set and each chunk
word set in `RAGService.retrieve_relevant_chunks`. -/
def wordsOf (text : String) : List String :=
  ((splitPred (fun c => c.isWhitespace) (toLowerStr text).data).map
      (fun piece => String.mk piece)).filter (fun w => w ≠ "")

/-- `len(query_words.intersection(chunk_words))` where both sides are Python
sets: the number of distinct query words that also occur among the chunk
words. -/
def match_count (query_words chunk_words : List String) : Nat :=
  (query_words.dedup.filter (fun w => w ∈ chunk_words)).length

/-- A scored retrieval candidate, the dict
`{"text": ..., "score": ..., "source": ...}` built by
`RAGService.retrieve_relevant_chunks`. -/
structure ScoredChunk where
  text : String
  score : Nat
  source : String
deriving DecidableEq, Repr

/-- The `if doc.chunks:` branch of `RAGService.retrieve_relevant_chunks`
(lines 65-77): every stored chunk whose word set meets the query word set
contributes a candidate carrying the match count as score, in stored order. -/
def scoredChunksOfDoc (query_words : List String) (filename : String) :
    List String → List ScoredChunk
  | [] => []
  | chunk :: rest =>
    let numMatches := match_count query_words (wordsOf chunk)
    if 0 < numMatches then
      ⟨chunk, numMatches, filename⟩ :: scoredChunksOfDoc query_words filename rest
    else
      scoredChunksOfDoc query_words filename rest

/-- Python `pat in s` on lists: `pat` occurs as a contiguous infix. -/
def listContains [BEq α] (pat : List α) : List α → Bool
  | [] => pat.isEmpty
  | a :: l => pat.isPrefixOf (a :: l) || listContains pat l

/-- Python substring test `pat in s`. -/
def strContains (s pat : String) : Bool :=
  listContains pat.data s.data

/-- The `elif doc.content:` branch of `RAGService.retrieve_relevant_chunks`
(lines 78-91): when a document has no stored chunks, the *document-level*
match count is computed first; if positive, the content is split on `'.'`,
only the first `top_k` sentences are examined, and each of those containing
some query word as a substring becomes a candidate scored with the
document-level match count. -/
def fallbackCandidates (query_words : List String) (filename content : String)
    (top_k : Nat) : List ScoredChunk :=
  let numMatches := match_count query_words (wordsOf content)
  if 0 < numMatches then
    ((splitDot content).take top_k).filterMap (fun sent =>
      if query_words.any (fun w => strContains (toLowerStr sent) w) then
        some ⟨pyStrip sent, numMatches, filename⟩
      else
        none)
  else
    []

/-- One step of insertion into a list already sorted by descending score:
the new element goes *after* every element with a score not below its own,
i.e. last among equals. -/
def insertDesc (x : ScoredChunk) : List ScoredChunk → List ScoredChunk
  | [] => [x]
  | y :: ys => if y.score < x.score then x :: y :: ys else y :: insertDesc x ys

/-- `relevant_chunks.sort(key=lambda x: x["score"], reverse=True)`: Python's
sort is stable, so the result is the unique permutation that is sorted by
descending score with equal-score candidates kept in input order; insertion
sort with `insertDesc` computes exactly that permutation. -/
def sortByScoreDesc (l : List ScoredChunk) : List ScoredChunk :=
  l.foldl (fun acc x => insertDesc x acc) []

/-- `RAGService.retrieve_relevant_chunks` restricted to an already collected
candidate pool (the precomputed-chunks path, lines 60-77 and 93-95): score the
chunks against the query, drop zero scores, stable-sort by descending score,
keep `top_k`, and return the bare texts. -/
def retrieve_from_chunks (user_query : String) (chunks : List String) (top_k : Nat) :
    List String :=
  let query_words := wordsOf user_query
  ((sortByScoreDesc (scoredChunksOfDoc query_words "" chunks)).take top_k).map
    (fun c => c.text)

/-- A row of the `documents` table as far as retrieval reads it
(`app/models.py`): nullable `content` and `chunks` are modelled by `""` and
`[]`, which Python treats as falsy exactly like `None` in the
`if doc.chunks: ... elif doc.content:` chain. -/
structure Document where
  id : Nat
  filename : String
  content : String
  chunks : List String
deriving DecidableEq, Repr

/-- `RAGService.retrieve_relevant_chunks(db, conversation_id, user_query, top_k)`:
the database reads are projected into the conversation's `mode`, the linked
document ids (`doc_links`) and the document table rows. -/
def retrieve_relevant_chunks (mode : String) (doc_links : List Nat)
    (db_documents : List Document) (user_query : String) (top_k : Nat) :
    List String :=
  if mode ≠ "rag" then []
  else if doc_links.isEmpty then []
  else
    let documents := db_documents.filter (fun d => doc_links.contains d.id)
    let query_words := wordsOf user_query
    let relevant_chunks := documents.foldl (fun acc doc =>
      acc ++
        (if ¬ doc.chunks.isEmpty then
          scoredChunksOfDoc query_words doc.filename doc.chunks
        else if doc.content ≠ "" then
          fallbackCandidates query_words doc.filename doc.content top_k
        else
          [])) []
    ((sortByScoreDesc relevant_chunks).take top_k).map (fun c => c.text)

/-- `RAGService.construct_rag_context` (lines 109-118), with the retrieved
chunk list as input: empty chunks give the empty string, otherwise a fixed
preamble followed by `"[i] chunk\n\n"` for each chunk, 1-indexed. -/
def construct_rag_context (chunks : List String) : String :=
  if chunks.isEmpty then ""
  else
    (chunks.enumFrom 1).foldl
      (fun context p => context ++ ("[" ++ toString p.1 ++ "] " ++ p.2 ++ "\n\n"))
      "Relevant context from documents:\n\n"

/-! ## ConversationService (`app/services/conversation_service.py`) -/

/-- The document-linking loop of `ConversationService.create_conversation`
(lines 48-56): for each requested id, a link row is added only when a
`Document` with that id exists; ids without a match are skipped without any
error.  The result lists the `document_id` values of the created link rows,
in request order. -/
def link_documents (db_documents : List Document) (document_ids : List Nat) : List Nat :=
  document_ids.filterMap (fun doc_id =>
    if db_documents.any (fun d => d.id == doc_id) then some doc_id else none)

/-- The persistence step of `ConversationService.add_message` (lines 91-97)
and equally of `create_conversation` (lines 59-65): the new user message is
added and flushed before `_generate_response` runs, so the subsequent history
query sees it. -/
def add_message_persisted (history : List ChatMsg) (content : String) : List ChatMsg :=
  history ++ [⟨"user", content⟩]

/-- The history assembly of `ConversationService._generate_response`
(lines 117-127 and 143-147): the persisted messages are loaded and projected
to role/content pairs, and then the current user message is appended once
more on top of whatever was loaded. -/
def generate_response_history (loaded : List ChatMsg) (user_message : String) : List ChatMsg :=
  (loaded.map (fun m => (⟨m.role, m.content⟩ : ChatMsg))) ++ [⟨"user", user_message⟩]

/-- The message assembly of `LLMService.generate_response` (lines 44-51): the
optional system prompt becomes a leading system entry, followed by the
messages handed in — this happens *after* the orchestrator's truncation. -/
def generate_response_messages (messages : List ChatMsg) (system_prompt : Option String) :
    List ChatMsg :=
  (match system_prompt with
   | some sp => [⟨"system", sp⟩]
   | none => []) ++ messages

/-- The full role/content message list handed to the chat-completion call for
one reply generation (`_generate_response` lines 143-161 composed with
`generate_response`): append the user message, truncate with budget
`max_context_tokens - max_tokens`, then let the model client prepend the
system prompt. -/
def pipeline_messages_sent (loaded : List ChatMsg) (user_message : String)
    (system_prompt : Option String) : List ChatMsg :=
  let message_history := generate_response_history loaded user_message
  let max_context := LLMService.max_context_tokens - LLMService.max_tokens
  generate_response_messages (truncate_messages message_history max_context true) system_prompt

/-- The message list the specification predicts for one reply generation,
written from the spec sentence "Compute the truncation budget = model's
maximum context window minus the model's maximum response length; apply the
History Truncator (system entry, if any, prepended before truncation)":
the system entry is prepended *first* and the truncator runs on the
system-led list. -/
def pipeline_messages_spec (loaded : List ChatMsg) (user_message : String)
    (system_prompt : Option String) : List ChatMsg :=
  truncate_messages
    (generate_response_messages (generate_response_history loaded user_message) system_prompt)
    (LLMService.max_context_tokens - LLMService.max_tokens) true

/-- The result dict of `LLMService.generate_response` /
the fallback dict of `_generate_response`. -/
structure LLMResponse where
  content : String
  tokens_used : Nat
  model_used : Option String
deriving DecidableEq, Repr

/-- The `except` branch of `ConversationService._generate_response`
(lines 162-168): the fallback response built when the model call raises. -/
def fallback_response (e : String) : LLMResponse :=
  ⟨"I apologize, but I encountered an error: " ++ e, 0, none⟩

/-- A row of the `messages` table as written by `_generate_response`
(lines 170-178). -/
structure AssistantMessage where
  role : String
  content : String
  tokens_used : Nat
  model_used : Option String
deriving DecidableEq, Repr

/-- The tail of `ConversationService._generate_response` (lines 156-179):
the model call either returns a response or raises, the raise is caught and
replaced by `fallback_response`, and either way an assistant message row is
built and added.  The function is total: no outcome of the model call
propagates as an error. -/
def generate_and_persist (llm_call : Except String LLMResponse) : AssistantMessage :=
  let response :=
    match llm_call with
    | .ok r => r
    | .error e => fallback_response e
  ⟨"assistant", response.content, response.tokens_used, response.model_used⟩

/-! ## Helper lemmas -/

/-- Folding string concatenation from an initial segment yields the initial
segment followed by the join of the pieces. -/
theorem foldl_strAppend_eq_join :
    ∀ (l : List String) (init : String),
      l.foldl (fun a b => a ++ b) init = init ++ String.join l := by
  intro l
  induction l with
  | nil => intro init; simp [String.join]
  | cons x xs ih =>
    intro init
    have hj : String.join (x :: xs) = x ++ String.join xs := by
      show (x :: xs).foldl (fun a b => a ++ b) "" = x ++ String.join xs
      rw [List.foldl_cons, ih ("" ++ x), String.empty_append]
    rw [List.foldl_cons, ih (init ++ x), hj, String.append_assoc]

/-- The same, with each element rendered through `f` first. -/
theorem foldl_append_eq_join (f : α → String) (l : List α) (init : String) :
    l.foldl (fun a x => a ++ f x) init = init ++ String.join (l.map f) := by
  rw [← List.foldl_map, foldl_strAppend_eq_join]

/-- Membership in an `insertDesc` result is membership in the old list or
being the inserted element. -/
theorem mem_insertDesc (x a : ScoredChunk) :
    ∀ l : List ScoredChunk, a ∈ insertDesc x l ↔ a = x ∨ a ∈ l := by
  intro l
  induction l with
  | nil => simp [insertDesc]
  | cons y ys ih =>
    by_cases h : y.score < x.score
    · simp [insertDesc, h, List.mem_cons]
    · simp [insertDesc, h, List.mem_cons, ih]
      tauto

/-- `insertDesc` preserves sortedness by descending score. -/
theorem pairwise_insertDesc (x : ScoredChunk) :
    ∀ l : List ScoredChunk, l.Pairwise (fun a b => b.score ≤ a.score) →
      (insertDesc x l).Pairwise (fun a b => b.score ≤ a.score) := by
  intro l
  induction l with
  | nil => intro _; simp [insertDesc]
  | cons y ys ih =>
    intro h
    rw [List.pairwise_cons] at h
    obtain ⟨h1, h2⟩ := h
    by_cases hyx : y.score < x.score
    · rw [insertDesc, if_pos hyx, List.pairwise_cons]
      refine ⟨?_, List.pairwise_cons.mpr ⟨h1, h2⟩⟩
      intro z hz
      rcases List.mem_cons.mp hz with rfl | hz
      · exact Nat.le_of_lt hyx
      · exact Nat.le_trans (h1 z hz) (Nat.le_of_lt hyx)
    · rw [insertDesc, if_neg hyx, List.pairwise_cons]
      refine ⟨?_, ih h2⟩
      intro z hz
      rcases (mem_insertDesc x z ys).mp hz with rfl | hz
      · exact Nat.le_of_not_lt hyx
      · exact h1 z hz

/-- Stability of one insertion step: on a list sorted by descending score,
inserting `x` appends it to the block of elements sharing its score, so the
sublist at any fixed score gains `x` at its end exactly when the score is
`x`'s. -/
theorem filter_insertDesc (x : ScoredChunk) (s : Nat) :
    ∀ l : List ScoredChunk, l.Pairwise (fun a b => b.score ≤ a.score) →
      (insertDesc x l).filter (fun c => c.score == s) =
        l.filter (fun c => c.score == s) ++ (if x.score == s then [x] else []) := by
  intro l
  induction l with
  | nil =>
    intro _
    simp only [insertDesc, List.filter, List.nil_append]
    split <;> simp_all
  | cons y ys ih =>
    intro h
    rw [List.pairwise_cons] at h
    obtain ⟨h1, h2⟩ := h
    by_cases hyx : y.score < x.score
    · rw [insertDesc, if_pos hyx]
      by_cases hxs : x.score = s
      · have hnil : (y :: ys).filter (fun c => c.score == s) = [] := by
          apply List.filter_eq_nil_iff.mpr
          intro z hz
          have hzlt : z.score < s := by
            rcases List.mem_cons.mp hz with rfl | hz
            · omega
            · exact Nat.lt_of_le_of_lt (h1 z hz) (by omega)
          simp [Nat.ne_of_lt hzlt]
        rw [List.filter_cons]
        simp only [hxs, beq_self_eq_true, if_pos]
        rw [hnil]
        simp [hxs]
      · have hxs' : (x.score == s) = false := by simp [hxs]
        rw [List.filter_cons, hxs']
        simp [hxs']
    · rw [insertDesc, if_neg hyx, List.filter_cons, List.filter_cons, ih h2]
      split <;> simp

/-- `sortByScoreDesc` output is sorted by descending score. -/
theorem sortByScoreDesc_pairwise (l : List ScoredChunk) :
    (sortByScoreDesc l).Pairwise (fun a b => b.score ≤ a.score) := by
  have aux : ∀ (l acc : List ScoredChunk),
      acc.Pairwise (fun a b => b.score ≤ a.score) →
      (l.foldl (fun acc x => insertDesc x acc) acc).Pairwise (fun a b => b.score ≤ a.score) := by
    intro l
    induction l with
    | nil => intro acc h; simpa using h
    | cons x xs ih =>
      intro acc h
      rw [List.foldl_cons]
      exact ih _ (pairwise_insertDesc x acc h)
  exact aux l [] (by simp)

/-- Stability of `sortByScoreDesc`: the sublist of candidates at any fixed
score is exactly the corresponding sublist of the input, in input order. -/
theorem sortByScoreDesc_filter (s : Nat) (l : List ScoredChunk) :
    (sortByScoreDesc l).filter (fun c => c.score == s) =
      l.filter (fun c => c.score == s) := by
  have aux : ∀ (l acc : List ScoredChunk),
      acc.Pairwise (fun a b => b.score ≤ a.score) →
      (l.foldl (fun acc x => insertDesc x acc) acc).filter (fun c => c.score == s) =
        acc.filter (fun c => c.score == s) ++ l.filter (fun c => c.score == s) := by
    intro l
    induction l with
    | nil => intro acc _; simp
    | cons x xs ih =>
      intro acc h
      rw [List.foldl_cons, ih _ (pairwise_insertDesc x acc h),
        filter_insertDesc x s acc h, List.filter_cons, List.append_assoc]
      split <;> simp
  simpa using aux l [] (by simp)

/-- Sorting neither adds nor removes candidates. -/
theorem mem_sortByScoreDesc (a : ScoredChunk) (l : List ScoredChunk) :
    a ∈ sortByScoreDesc l ↔ a ∈ l := by
  have aux : ∀ (l acc : List ScoredChunk),
      a ∈ l.foldl (fun acc x => insertDesc x acc) acc ↔ a ∈ acc ∨ a ∈ l := by
    intro l
    induction l with
    | nil => intro acc; simp
    | cons x xs ih =>
      intro acc
      rw [List.foldl_cons, ih, mem_insertDesc, List.mem_cons]
      tauto
  simpa using aux l []

/-- Every candidate produced from stored chunks carries a positive score that
is exactly the query/chunk word-set intersection size of its text. -/
theorem scoredChunksOfDoc_mem (query_words : List String) (filename : String)
    (c : ScoredChunk) :
    ∀ chunks : List String, c ∈ scoredChunksOfDoc query_words filename chunks →
      c.score = match_count query_words (wordsOf c.text) ∧ 0 < c.score := by
  intro chunks
  induction chunks with
  | nil => simp [scoredChunksOfDoc]
  | cons chunk rest ih =>
    intro hc
    rw [scoredChunksOfDoc] at hc
    by_cases h : 0 < match_count query_words (wordsOf chunk)
    · rw [if_pos h] at hc
      rcases List.mem_cons.mp hc with rfl | hc
      · exact ⟨rfl, h⟩
      · exact ih hc
    · rw [if_neg h] at hc
      exact ih hc

/-! ## Theorems for the claims -/

/-- C1: the claim says the role/content history passed to the model client
contains exactly one user entry holding the new user text.  In the code the
caller flushes the new user message before `_generate_response` runs, the
history query then loads it, and `_generate_response` appends it once more,
so the model sees it twice: evaluating the pipeline on a fresh conversation
and the message "hi" yields two user entries with content "hi". -/
theorem duplicate_user_message_sent :
    ((pipeline_messages_sent (add_message_persisted [] "hi") "hi" none).countP
      (fun m => m.role == "user" && m.content == "hi")) = 2 := by decide

/-- C2: the claim says the kept entries appear in chronological order with
the system entry first.  On the over-budget list
`[system "aaaa", user "bbbb", user "cccc"]` with budget 2 the code's
insertion-index arithmetic places the kept system entry *last*, after the
retained recent message. -/
theorem truncate_system_entry_misordered :
    truncate_messages [⟨"system", "aaaa"⟩, ⟨"user", "bbbb"⟩, ⟨"user", "cccc"⟩] 2 true
      = [⟨"user", "cccc"⟩, ⟨"system", "aaaa"⟩] := by decide

/-- C4: when the model call errors, the error is swallowed and an assistant
message is persisted whose content is the apology prefix followed by the
error description, with zero tokens consumed and a null model identifier. -/
theorem fallback_on_error (e : String) :
    (generate_and_persist (Except.error e)).role = "assistant" ∧
    (generate_and_persist (Except.error e)).tokens_used = 0 ∧
    (generate_and_persist (Except.error e)).model_used = none ∧
    ((generate_and_persist (Except.error e)).content).data =
      ("I apologize, but I encountered an error: ").data ++ e.data := by
  refine ⟨rfl, rfl, rfl, ?_⟩
  simp [generate_and_persist, fallback_response]

/-- C6: the claim says an over-budget list without a leading system entry
keeps the suffix of recent entries that fits the budget.  The code never
resets `total_tokens` in that branch, so the walk rejects even the most
recent entry: on `[user "aaaa", user "bbbb", user "cccc"]` (1 token each)
with budget 2 it returns the empty list instead of the fitting suffix
`[user "bbbb", user "cccc"]`. -/
theorem truncate_drops_all_without_system :
    truncate_messages [⟨"user", "aaaa"⟩, ⟨"user", "bbbb"⟩, ⟨"user", "cccc"⟩] 2 true = [] := by
  decide

/-- A history whose summed token estimate fits the budget is returned
unchanged. -/
theorem truncate_messages_of_le (messages : List ChatMsg) (maxTok : Nat) (keep_system : Bool)
    (h : (messages.map (fun m => LLMService.estimate_tokens m.content)).sum ≤ maxTok) :
    truncate_messages messages maxTok keep_system = messages := by
  unfold truncate_messages
  by_cases he : messages.isEmpty
  · simp [he]
  · simp [he, h]

/-- C7: whenever the summed token estimate fits the budget, truncation is the
identity, and the empty input comes back empty. -/
theorem truncate_messages_identity (messages : List ChatMsg) (maxTok : Nat) (keep_system : Bool)
    (h : (messages.map (fun m => LLMService.estimate_tokens m.content)).sum ≤ maxTok) :
    truncate_messages messages maxTok keep_system = messages ∧
    truncate_messages [] maxTok keep_system = [] :=
  ⟨truncate_messages_of_le messages maxTok keep_system h, rfl⟩

/-- Witness for C7: a one-message list of 1 estimated token under budget 10
is returned unchanged. -/
theorem truncate_messages_identity_witness :
    ((([⟨"user", "hello"⟩] : List ChatMsg).map
        (fun m => LLMService.estimate_tokens m.content)).sum ≤ 10) ∧
    (truncate_messages [⟨"user", "hello"⟩] 10 true = [⟨"user", "hello"⟩] ∧
     truncate_messages ([] : List ChatMsg) 10 true = []) :=
  ⟨by decide, truncate_messages_identity [⟨"user", "hello"⟩] 10 true (by decide)⟩

/-- C9: the context assembler maps the empty chunk list to the empty string,
and a non-empty list of N chunks to the fixed preamble followed by the
bracketed items in supplied order, whose indices are exactly 1..N. -/
theorem construct_rag_context_spec (chunks : List String) (h : chunks ≠ []) :
    construct_rag_context [] = "" ∧
    construct_rag_context chunks =
      "Relevant context from documents:\n\n" ++
        String.join ((chunks.enumFrom 1).map
          (fun p => "[" ++ toString p.1 ++ "] " ++ p.2 ++ "\n\n")) ∧
    (chunks.enumFrom 1).map Prod.fst = List.range' 1 chunks.length := by
  refine ⟨rfl, ?_, ?_⟩
  · unfold construct_rag_context
    rw [if_neg (by simpa [List.isEmpty_iff] using h)]
    exact foldl_append_eq_join _ _ _
  · exact List.enumFrom_map_fst 1 chunks

/-- Witness for C9 at the chunk list `["alpha", "beta"]`. -/
theorem construct_rag_context_spec_witness :
    ((["alpha", "beta"] : List String) ≠ []) ∧
    (construct_rag_context [] = "" ∧
     construct_rag_context ["alpha", "beta"] =
       "Relevant context from documents:\n\n" ++
         String.join (((["alpha", "beta"] : List String).enumFrom 1).map
           (fun p => "[" ++ toString p.1 ++ "] " ++ p.2 ++ "\n\n")) ∧
     ((["alpha", "beta"] : List String).enumFrom 1).map Prod.fst =
       List.range' 1 (["alpha", "beta"] : List String).length) :=
  ⟨by decide, construct_rag_context_spec ["alpha", "beta"] (by decide)⟩

/-- C5: on the precomputed-chunks path, at most `top_k` texts come back,
every returned text shares at least one word with the query after
lowercasing and whitespace splitting, and the candidate ranking is the
stable descending-score order: sorted by score, with the candidates of any
fixed score kept in original candidate order. -/
theorem retrieve_from_chunks_spec (user_query : String) (chunks : List String) (top_k : Nat) :
    (retrieve_from_chunks user_query chunks top_k).length ≤ top_k ∧
    (∀ t ∈ retrieve_from_chunks user_query chunks top_k,
        0 < match_count (wordsOf user_query) (wordsOf t)) ∧
    (sortByScoreDesc (scoredChunksOfDoc (wordsOf user_query) "" chunks)).Pairwise
      (fun a b => b.score ≤ a.score) ∧
    (∀ s : Nat,
      (sortByScoreDesc (scoredChunksOfDoc (wordsOf user_query) "" chunks)).filter
          (fun c => c.score == s) =
        (scoredChunksOfDoc (wordsOf user_query) "" chunks).filter (fun c => c.score == s)) ∧
    retrieve_from_chunks user_query chunks top_k =
      ((sortByScoreDesc (scoredChunksOfDoc (wordsOf user_query) "" chunks)).take top_k).map
        (fun c => c.text) := by
  refine ⟨?_, ?_, sortByScoreDesc_pairwise _, fun s => sortByScoreDesc_filter s _, rfl⟩
  · rw [retrieve_from_chunks]
    simp only [List.length_map, List.length_take]
    exact Nat.min_le_left _ _
  · intro t ht
    rw [retrieve_from_chunks] at ht
    obtain ⟨c, hc, rfl⟩ := List.mem_map.mp ht
    have hc' : c ∈ scoredChunksOfDoc (wordsOf user_query) "" chunks :=
      (mem_sortByScoreDesc c _).mp (List.take_subset _ _ hc)
    obtain ⟨hscore, hpos⟩ := scoredChunksOfDoc_mem _ _ c chunks hc'
    rw [← hscore]
    exact hpos

/-- Witness for C5: instantiating the membership conjunct at the query
"cat dog", the candidate pool `["bird fish", "cat bird"]` and the returned
chunk "cat bird" shows its score is positive. -/
theorem retrieve_from_chunks_spec_witness :
    0 < match_count (wordsOf "cat dog") (wordsOf "cat bird") :=
  (retrieve_from_chunks_spec "cat dog" ["bird fish", "cat bird"] 3).2.1
    "cat bird" (by decide)

/-- The fallback candidate derivation as claim C8 words it: the first `top_k`
sentences *that contain a query word*, each scored with the intersection of
the query word set and that sentence's own word set. -/
def fallbackCandidatesClaim (query_words : List String) (filename content : String)
    (top_k : Nat) : List ScoredChunk :=
  (((splitDot content).filter
      (fun sent => query_words.any (fun w => strContains (toLowerStr sent) w))).take top_k).map
    (fun sent => ⟨pyStrip sent, match_count query_words (wordsOf sent), filename⟩)

/-- The fallback candidate derivation as the code actually behaves, written
as a filter/map pipeline: the matching sentences *among the first `top_k`
sentences of the split*, each scored with the document-level intersection
size, and nothing at all when the document-level intersection is empty. -/
def fallbackCandidatesAmended (query_words : List String) (filename content : String)
    (top_k : Nat) : List ScoredChunk :=
  if 0 < match_count query_words (wordsOf content) then
    (((splitDot content).take top_k).filter
        (fun sent => query_words.any (fun w => strContains (toLowerStr sent) w))).map
      (fun sent => ⟨pyStrip sent, match_count query_words (wordsOf content), filename⟩)
  else
    []

/-- A conditional `filterMap` is the `map` of the `filter`. -/
theorem filterMap_ite_eq_map_filter (p : α → Bool) (f : α → β) :
    ∀ l : List α,
      l.filterMap (fun a => if p a then some (f a) else none) = (l.filter p).map f := by
  intro l
  induction l with
  | nil => simp
  | cons a l ih =>
    by_cases h : p a
    · simp [List.filterMap_cons, List.filter_cons, h, ih]
    · simp [List.filterMap_cons, List.filter_cons, h, ih]

/-- C8 counterexample: on the document content `"apple pie. banana"` and
query words `{"apple", "banana"}`, the code scores the sentence
`"apple pie"` with the document-level intersection size 2, while the claim
predicts its own sentence-level intersection size 1, so the derived
candidates differ. -/
theorem fallback_candidates_cex :
    fallbackCandidates ["apple", "banana"] "f" "apple pie. banana" 3 ≠
      fallbackCandidatesClaim ["apple", "banana"] "f" "apple pie. banana" 3 := by
  decide

/-- C8 amended: the fallback candidates are exactly the matching sentences
among the first `top_k` sentences of the period split (cap applied before
the match filter), each scored with the document-level intersection size,
and only when the document-level intersection is non-empty. -/
theorem fallback_candidates_amended (query_words : List String) (filename content : String)
    (top_k : Nat) :
    fallbackCandidates query_words filename content top_k =
      fallbackCandidatesAmended query_words filename content top_k := by
  rw [fallbackCandidates, fallbackCandidatesAmended]
  by_cases h : 0 < match_count query_words (wordsOf content)
  · rw [if_pos h, if_pos h]
    exact filterMap_ite_eq_map_filter _ _ _
  · rw [if_neg h, if_neg h]

/-- C10: for every database and every requested id list, the created links
are exactly the requested ids that match a stored document, in request order
— so any unmatched id is silently skipped (no error, no link), every created
link points at an existing document, and there are never more links than
requested ids, covering the partial-match case with fewer links than
requests; when additionally no id matches at all, no link is created and
retrieval in rag mode returns the empty sequence, the same output as open
mode. -/
theorem link_documents_spec (db_documents : List Document) (document_ids : List Nat)
    (user_query : String) (top_k : Nat) :
    link_documents db_documents document_ids =
      document_ids.filter (fun i => db_documents.any (fun d => d.id == i)) ∧
    (∀ i ∈ link_documents db_documents document_ids, ∃ d ∈ db_documents, d.id = i) ∧
    (link_documents db_documents document_ids).length ≤ document_ids.length ∧
    ((∀ i ∈ document_ids, ∀ d ∈ db_documents, d.id ≠ i) →
      link_documents db_documents document_ids = [] ∧
      retrieve_relevant_chunks "rag" (link_documents db_documents document_ids)
        db_documents user_query top_k = [] ∧
      retrieve_relevant_chunks "rag" (link_documents db_documents document_ids)
          db_documents user_query top_k =
        retrieve_relevant_chunks "open" (link_documents db_documents document_ids)
          db_documents user_query top_k) := by
  have hfilter : link_documents db_documents document_ids =
      document_ids.filter (fun i => db_documents.any (fun d => d.id == i)) := by
    rw [link_documents, filterMap_ite_eq_map_filter]
    exact List.map_id _
  refine ⟨hfilter, ?_, ?_, ?_⟩
  · intro i hi
    rw [hfilter] at hi
    have hany := List.of_mem_filter hi
    rw [List.any_eq_true] at hany
    obtain ⟨d, hd, hdi⟩ := hany
    exact ⟨d, hd, by simpa using hdi⟩
  · rw [hfilter]
    exact List.length_filter_le _ _
  · intro h
    have hnil : link_documents db_documents document_ids = [] := by
      rw [hfilter]
      apply List.filter_eq_nil_iff.mpr
      intro i hi hany
      rw [List.any_eq_true] at hany
      obtain ⟨d, hd, hdi⟩ := hany
      exact h i hi d hd (by simpa using hdi)
    refine ⟨hnil, ?_, ?_⟩
    · rw [hnil, retrieve_relevant_chunks]
      simp
    · rw [hnil, retrieve_relevant_chunks, retrieve_relevant_chunks]
      simp

/-- Witness for C10, exercising both cases: a request `[1, 2]` against a
database holding only document 1 creates exactly the single link `[1]` —
fewer links than requested, the unmatched id 2 skipped without error — and a
request `[2, 3]` matching nothing creates no links, with empty rag retrieval
equal to the open-mode output. -/
theorem link_documents_spec_witness :
    link_documents [⟨1, "doc.txt", "", []⟩] [1, 2] = [1] ∧
    (∀ i ∈ ([2, 3] : List Nat), ∀ d ∈ [(⟨1, "doc.txt", "", []⟩ : Document)], d.id ≠ i) ∧
    (link_documents [⟨1, "doc.txt", "", []⟩] [2, 3] = [] ∧
     retrieve_relevant_chunks "rag" (link_documents [⟨1, "doc.txt", "", []⟩] [2, 3])
       [⟨1, "doc.txt", "", []⟩] "hello" 3 = [] ∧
     retrieve_relevant_chunks "rag" (link_documents [⟨1, "doc.txt", "", []⟩] [2, 3])
         [⟨1, "doc.txt", "", []⟩] "hello" 3 =
       retrieve_relevant_chunks "open" (link_documents [⟨1, "doc.txt", "", []⟩] [2, 3])
         [⟨1, "doc.txt", "", []⟩] "hello" 3) :=
  ⟨((link_documents_spec [⟨1, "doc.txt", "", []⟩] [1, 2] "hello" 3).1).trans (by decide),
   by decide,
   (link_documents_spec [⟨1, "doc.txt", "", []⟩] [2, 3] "hello" 3).2.2.2 (by decide)⟩

/-- A 124000-character system prompt (such as a large retrieved context),
estimated at 31000 tokens — above the pipeline's fixed truncation budget of
`32768 - 2048 = 30720`. -/
def bigA : String := String.mk (List.replicate 124000 'a')

/-- The length of `bigA`, established through the replicate-length lemma
rather than by evaluation. -/
theorem bigA_length : bigA.length = 124000 := List.length_replicate 124000 'a'

/-- `estimate_tokens` of `bigA` is `124000 / 4 = 31000`. -/
theorem bigA_tokens : LLMService.estimate_tokens bigA = 31000 := by
  rw [LLMService.estimate_tokens, bigA_length]

/-- One rejected step of the truncation walk: when the entry at the current
index does not fit, the loop breaks and returns the accumulated result. -/
theorem truncGo_nofit (messages : List ChatMsg) (toks : List Nat) (mx s k : Nat)
    (res : List ChatMsg) (tot : Nat)
    (h : ¬ tot + toks.getD (s + k) 0 ≤ mx) :
    truncGo messages toks mx s (k + 1) res tot = res := by
  rw [truncGo]
  exact if_neg h

/-- Evaluating the truncation the spec predicts in the counterexample run:
with the over-budget system entry prepended before truncation, the system
entry is kept but its cost already exceeds the budget, so the user message
is dropped. -/
theorem trunc_spec_eval :
    truncate_messages [⟨"system", bigA⟩, ⟨"user", "hi"⟩] 30720 true
      = [⟨"system", bigA⟩] := by
  have hhi : LLMService.estimate_tokens "hi" = 0 := by decide
  rw [truncate_messages]
  simp only [List.isEmpty_cons, List.map_cons, List.map_nil, List.sum_cons, List.sum_nil,
    List.headD_cons, bigA_tokens, hhi]
  norm_num
  exact truncGo_nofit _ _ _ _ _ _ _ (by norm_num)

/-- C3 counterexample: with an empty prior history, the new user message
"hi" and a 31000-token system prompt, the code sends the system entry and
the user entry (the history alone fits the budget, and the system prompt is
prepended only afterwards), while the claim predicts that truncating the
system-led list drops the user entry.  The two message lists differ. -/
theorem pipeline_truncation_cex :
    pipeline_messages_sent [] "hi" (some bigA) ≠
      pipeline_messages_spec [] "hi" (some bigA) := by
  have h1 : pipeline_messages_sent [] "hi" (some bigA)
      = [⟨"system", bigA⟩, ⟨"user", "hi"⟩] := by
    show generate_response_messages
      (truncate_messages (generate_response_history [] "hi")
        (LLMService.max_context_tokens - LLMService.max_tokens) true) (some bigA)
      = [⟨"system", bigA⟩, ⟨"user", "hi"⟩]
    rw [truncate_messages_of_le (generate_response_history [] "hi") _ true (by decide)]
    rfl
  have h2 : pipeline_messages_spec [] "hi" (some bigA) = [⟨"system", bigA⟩] := by
    show truncate_messages
      (generate_response_messages (generate_response_history [] "hi") (some bigA))
      (LLMService.max_context_tokens - LLMService.max_tokens) true
      = [⟨"system", bigA⟩]
    have hh : generate_response_messages (generate_response_history [] "hi") (some bigA)
        = [⟨"system", bigA⟩, ⟨"user", "hi"⟩] := rfl
    have hbudget : LLMService.max_context_tokens - LLMService.max_tokens = 30720 := rfl
    rw [hh, hbudget, trunc_spec_eval]
  rw [h1, h2]
  intro hcontra
  exact absurd (congrArg List.length hcontra) (by decide)

/-- C3 amended: the truncation budget is the model's maximum context window
minus its maximum response length, but the History Truncator runs on the
history *without* the system entry; the model client prepends the system
prompt only afterwards, so the system prompt's token cost is not counted
against the budget. -/
theorem pipeline_system_prompt_after_truncation (loaded : List ChatMsg) (u s : String) :
    pipeline_messages_sent loaded u (some s) =
      ⟨"system", s⟩ :: pipeline_messages_sent loaded u none ∧
    pipeline_messages_sent loaded u none =
      truncate_messages (generate_response_history loaded u)
        (LLMService.max_context_tokens - LLMService.max_tokens) true :=
  ⟨rfl, rfl⟩

end BotGPT
